import Mathlib

/-!
Shallow embedding of the `curly` HTTP client core: the request/response
domain model (`internal/domain`), the auth strategies (`internal/domain/auth.go`),
the execution engine's wire-request construction and redirect policy
(`internal/infrastructure/http/client.go`), and the sqlite persistence layer's
auth (de)serialization.  Go maps are modelled as association lists, machine
strings as Lean `String`, `int64` as `Int`.
-/

namespace Curly

/-- Model of Go `unicode.IsSpace`: the Unicode White_Space code points. -/
def goIsSpace (c : Char) : Bool :=
  c.val = 9 || c.val = 10 || c.val = 11 || c.val = 12 || c.val = 13 || c.val = 32 ||
  c.val = 0x85 || c.val = 0xA0 || c.val = 0x1680 ||
  (0x2000 ≤ c.val && c.val ≤ 0x200A) ||
  c.val = 0x2028 || c.val = 0x2029 || c.val = 0x202F || c.val = 0x205F || c.val = 0x3000

/-- Model of Go `strings.TrimSpace`: drop leading and trailing white space. -/
def trimSpace (s : String) : String :=
  ⟨((s.data.dropWhile goIsSpace).reverse.dropWhile goIsSpace).reverse⟩

/-- ASCII-only lower casing of one character (`'A'..'Z'` mapped, all else kept). -/
def asciiLowerChar (c : Char) : Char :=
  if 'A' ≤ c ∧ c ≤ 'Z' then Char.ofNat (c.toNat + 32) else c

/-- ASCII-only lower casing of a string. -/
def asciiLowerStr (s : String) : String :=
  ⟨s.data.map asciiLowerChar⟩

/-- ASCII-only upper casing of one character; model of Go `strings.ToUpper`
restricted to the ASCII range (all inputs of interest are ASCII method names). -/
def asciiUpperChar (c : Char) : Char :=
  if 'a' ≤ c ∧ c ≤ 'z' then Char.ofNat (c.toNat - 32) else c

/-- ASCII-only upper casing of a string. -/
def toUpperStr (s : String) : String :=
  ⟨s.data.map asciiUpperChar⟩

/-- Exact-key lookup in an association list (a Go `map[string]string` read). -/
def lookupExact (hs : List (String × String)) (k : String) : Option String :=
  match hs with
  | [] => none
  | (k2, v) :: rest => if k2 = k then some v else lookupExact rest k

/-- The standard base64 alphabet used by Go `base64.StdEncoding`. -/
def base64Table : List Char :=
  "ABCDEFGHIJKLMNOPQRSTUVWXYZabcdefghijklmnopqrstuvwxyz0123456789+/".data

/-- One base64 output character for a 6-bit group. -/
def b64Char (n : Nat) : Char := base64Table.getD n 'A'

/-- Base64-encode a byte list three bytes at a time, `=`-padding the tail. -/
def base64Chunks : List Nat → List Char
  | b0 :: b1 :: b2 :: rest =>
      b64Char (b0 / 4) :: b64Char ((b0 % 4) * 16 + b1 / 16) ::
      b64Char ((b1 % 16) * 4 + b2 / 64) :: b64Char (b2 % 64) :: base64Chunks rest
  | [b0, b1] => [b64Char (b0 / 4), b64Char ((b0 % 4) * 16 + b1 / 16), b64Char ((b1 % 16) * 4), '=']
  | [b0] => [b64Char (b0 / 4), b64Char ((b0 % 4) * 16), '=', '=']
  | [] => []

/-- Model of Go `base64.StdEncoding.EncodeToString` on a string's UTF-8 bytes. -/
def base64Encode (s : String) : String :=
  ⟨base64Chunks (s.toUTF8.toList.map (fun b => b.toNat))⟩

/-- The sentinel auth errors of `internal/domain/errors.go`. -/
inductive AuthErr where
  | missingUsername
  | missingPassword
  | missingToken
  | missingAPIKeyName
  | missingAPIKey
  | invalidAPIKeyLocation
  deriving DecidableEq, Repr

/-- Go `domain.APIKeyLocation` is a string type; its two named constants follow. -/
abbrev APIKeyLocation := String

/-- `domain.APIKeyLocationHeader`. -/
def apiKeyLocationHeader : APIKeyLocation := "header"

/-- `domain.APIKeyLocationQuery`. -/
def apiKeyLocationQuery : APIKeyLocation := "query"

/-- The closed set of auth strategies of `internal/domain/auth.go`
(`NoAuth`, `BasicAuth`, `BearerAuth`, `APIKeyAuth`) as a sum type. -/
inductive AuthConfig where
  | noAuth
  | basic (username password : String)
  | bearer (token : String)
  | apikey (key value : String) (location : APIKeyLocation)
  deriving DecidableEq, Repr

/-- The `Type()` discriminator of each variant. -/
def AuthConfig.type : AuthConfig → String
  | .noAuth => "none"
  | .basic _ _ => "basic"
  | .bearer _ => "bearer"
  | .apikey _ _ _ => "apikey"

/-- The `Validate()` method of each variant, translated clause by clause:
`NoAuth` always valid; `BasicAuth` requires `TrimSpace(Username) != ""` and
`Password != ""`; `BearerAuth` requires a non-blank token; `APIKeyAuth`
requires non-blank key and value and a known location. -/
def AuthConfig.validate : AuthConfig → Option AuthErr
  | .noAuth => none
  | .basic u p =>
      if trimSpace u = "" then some .missingUsername
      else if p = "" then some .missingPassword
      else none
  | .bearer t =>
      if trimSpace t = "" then some .missingToken
      else none
  | .apikey k v loc =>
      if trimSpace k = "" then some .missingAPIKeyName
      else if trimSpace v = "" then some .missingAPIKey
      else if loc ≠ apiKeyLocationHeader ∧ loc ≠ apiKeyLocationQuery then some .invalidAPIKeyLocation
      else none

/-! ## URL and query-string model (Go `net/url`) -/

/-- Parsed URL record: the fields of Go `url.URL` the core reads or writes.
The path is kept in raw (unescaped-as-written) form; escape validation inside
paths and hosts is not modelled. -/
structure URLRec where
  scheme : String
  host : String
  path : String
  rawQuery : String
  fragment : String
  deriving DecidableEq, Repr

/-- `url.Values` (`map[string][]string`) as an association list. -/
abbrev Values := List (String × List String)

/-- `Values.Get`-style lookup returning the whole value list of a key. -/
def valuesLookup (m : Values) (k : String) : Option (List String) :=
  match m with
  | [] => none
  | (k2, vs) :: rest => if k2 = k then some vs else valuesLookup rest k

/-- `Values.Add`: append one value to a key's list. -/
def valuesAdd (m : Values) (k v : String) : Values :=
  match m with
  | [] => [(k, [v])]
  | (k2, vs) :: rest => if k2 = k then (k2, vs ++ [v]) :: rest else (k2, vs) :: valuesAdd rest k v

/-- `Values.Set`: replace a key's list with the single given value. -/
def valuesSet (m : Values) (k v : String) : Values :=
  match m with
  | [] => [(k, [v])]
  | (k2, vs) :: rest => if k2 = k then (k2, [v]) :: rest else (k2, vs) :: valuesSet rest k v

/-- Hexadecimal digit value, as in `net/url`'s unhex. -/
def hexVal (c : Char) : Option Nat :=
  if '0' ≤ c ∧ c ≤ '9' then some (c.toNat - 48)
  else if 'A' ≤ c ∧ c ≤ 'F' then some (c.toNat - 55)
  else if 'a' ≤ c ∧ c ≤ 'f' then some (c.toNat - 87)
  else none

/-- Model of `url.QueryUnescape` at code-point level: `%XY` decodes to the
byte value as one character, `+` decodes to space, a malformed escape fails. -/
def unescapeChars : List Char → Option (List Char)
  | [] => some []
  | '%' :: a :: b :: rest => do
      let ha ← hexVal a
      let hb ← hexVal b
      let tail ← unescapeChars rest
      pure (Char.ofNat (16 * ha + hb) :: tail)
  | '%' :: _ => none
  | '+' :: rest => do pure (' ' :: (← unescapeChars rest))
  | c :: rest => do pure (c :: (← unescapeChars rest))

/-- String-level query unescaping. -/
def queryUnescape (s : String) : Option String :=
  (unescapeChars s.data).map (fun l => ⟨l⟩)

/-- Split a `key=value` segment at the first `=` (Go `strings.Cut`). -/
def cutEq (seg : String) : String × String :=
  match seg.splitOn "=" with
  | [] => (seg, "")
  | k :: rest => (k, String.intercalate "=" rest)

/-- Model of `url.ParseQuery` as used via `URL.Query()` (errors ignored):
split on `&`, skip empty segments and segments containing `;`, skip pairs
whose key or value fails to unescape, collect the rest in order. -/
def parseQuery (rawQuery : String) : Values :=
  (rawQuery.splitOn "&").foldl
    (fun m seg =>
      if seg = "" then m
      else if seg.contains ';' then m
      else
        let kv := cutEq seg
        match queryUnescape kv.1, queryUnescape kv.2 with
        | some k2, some v2 => valuesAdd m k2 v2
        | _, _ => m)
    []

/-- UTF-8 bytes of one character. -/
def utf8Bytes (c : Char) : List Nat :=
  let n := c.toNat
  if n < 0x80 then [n]
  else if n < 0x800 then [0xC0 + n / 0x40, 0x80 + n % 0x40]
  else if n < 0x10000 then [0xE0 + n / 0x1000, 0x80 + (n / 0x40) % 0x40, 0x80 + n % 0x40]
  else [0xF0 + n / 0x40000, 0x80 + (n / 0x1000) % 0x40, 0x80 + (n / 0x40) % 0x40, 0x80 + n % 0x40]

/-- Upper-case hexadecimal digit. -/
def hexDigit (n : Nat) : Char :=
  if n < 10 then Char.ofNat (48 + n) else Char.ofNat (55 + n)

/-- Percent-encoding of one byte. -/
def percentByte (b : Nat) : List Char :=
  ['%', hexDigit (b / 16), hexDigit (b % 16)]

/-- Model of `url.QueryEscape`: unreserved characters kept, space becomes `+`,
everything else percent-encoded byte-wise. -/
def queryEscape (s : String) : String :=
  ⟨s.data.foldr
    (fun c acc =>
      if c.isAlphanum ∨ c = '-' ∨ c = '_' ∨ c = '.' ∨ c = '~' then c :: acc
      else if c = ' ' then '+' :: acc
      else (utf8Bytes c).foldr (fun b acc2 => percentByte b ++ acc2) acc)
    []⟩

/-- Insert one entry into a key-sorted `Values` list. -/
def insertValuesSorted (p : String × List String) : Values → Values
  | [] => [p]
  | q :: rest => if p.1 < q.1 then p :: q :: rest else q :: insertValuesSorted p rest

/-- Sort a `Values` list by key (Go `Encode` sorts keys). -/
def sortValues (m : Values) : Values :=
  m.foldr insertValuesSorted []

/-- Model of `Values.Encode`: keys sorted, each value escaped, joined by `&`. -/
def encodeQuery (m : Values) : String :=
  String.intercalate "&"
    (((sortValues m).map (fun p => p.2.map (fun v => queryEscape p.1 ++ "=" ++ queryEscape v))).flatten)

/-- Cut a character list at the first occurrence of `c`. -/
def cutListAt (c : Char) : List Char → List Char × Option (List Char)
  | [] => ([], none)
  | x :: rest =>
      if x = c then ([], some rest)
      else
        let r := cutListAt c rest
        (x :: r.1, r.2)

/-- Cut a string at the first occurrence of `c`; the second component is `""`
when `c` is absent. -/
def cutStr (s : String) (c : Char) : String × String :=
  let r := cutListAt c s.data
  (⟨r.1⟩, ⟨(r.2).getD []⟩)

/-- Scheme scan of Go `net/url`'s getScheme: a leading run of
`[a-zA-Z][a-zA-Z0-9+.-]*` followed by `:` is the scheme. -/
def findScheme (l : List Char) (i : Nat) (acc : List Char) : Option (List Char × List Char) :=
  match l with
  | [] => none
  | c :: rest =>
      if c.isAlpha then findScheme rest (i + 1) (acc ++ [c])
      else if c.isDigit ∨ c = '+' ∨ c = '-' ∨ c = '.' then
        (if i = 0 then none else findScheme rest (i + 1) (acc ++ [c]))
      else if c = ':' then (if i = 0 then none else some (acc, rest))
      else none

/-- Model of Go `url.Parse`, covering what the core reads: reject control
characters and a leading colon, cut the fragment at the first `#`, scan the
scheme (lower-cased), cut the raw query at the first `?`, and when the rest
starts with `//` read the authority up to the next `/` (the part after the
last `@` is the host).  Escape validation inside host and path is not
modelled. -/
def parseURL (s : String) : Except String URLRec :=
  if s.data.any (fun c => c.toNat < 0x20 ∨ c.toNat = 0x7F) then
    .error "net/url: invalid control character in URL"
  else if s.data.head? = some ':' then
    .error "missing protocol scheme"
  else
    let fragCut := cutStr s '#'
    let frag := fragCut.2
    let schemeRest :=
      match findScheme fragCut.1.data 0 [] with
      | some r => (asciiLowerStr ⟨r.1⟩, (⟨r.2⟩ : String))
      | none => ("", fragCut.1)
    let queryCut := cutStr schemeRest.2 '?'
    let rawQuery := queryCut.2
    let rest := queryCut.1
    if rest.data.take 2 = ['/', '/'] then
      let after := rest.data.drop 2
      let authority := after.takeWhile (fun c => c ≠ '/')
      let path := after.dropWhile (fun c => c ≠ '/')
      let host :=
        if authority.contains '@' then
          (authority.reverse.takeWhile (fun c => c ≠ '@')).reverse
        else authority
      .ok ⟨schemeRest.1, ⟨host⟩, ⟨path⟩, rawQuery, frag⟩
    else
      .ok ⟨schemeRest.1, "", rest, rawQuery, frag⟩

/-- Reassemble a URL string from a record (model of `url.URL.String()`). -/
def URLRec.toStr (u : URLRec) : String :=
  (if u.scheme ≠ "" then u.scheme ++ ":" else "") ++
  (if u.host ≠ "" then "//" ++ u.host else "") ++
  u.path ++
  (if u.rawQuery ≠ "" then "?" ++ u.rawQuery else "") ++
  (if u.fragment ≠ "" then "#" ++ u.fragment else "")

/-! ## Request entity and validation (`internal/domain/request.go`) -/

/-- `domain.Request`; header and query maps are association lists, the
timestamps are abstract instants. -/
structure Request where
  id : String
  name : String
  method : String
  url : String
  headers : List (String × String)
  queryParams : List (String × String)
  body : String
  authConfig : Option AuthConfig
  createdAt : Int
  updatedAt : Int
  deriving DecidableEq, Repr

/-- `domain.SupportedMethods`. -/
def supportedMethods : List String :=
  ["GET", "POST", "PUT", "PATCH", "DELETE", "HEAD", "OPTIONS"]

/-- The sentinel validation errors of `internal/domain/errors.go`, plus the
pass-through of an auth error from `AuthConfig.Validate`. -/
inductive DomainError where
  | emptyMethod
  | invalidMethod
  | emptyURL
  | invalidURL
  | invalidHeaderName
  | invalidQueryParam
  | authError (e : AuthErr)
  deriving DecidableEq, Repr

/-- `Request.ValidateMethod`: non-blank and, upper-cased, in the supported set. -/
def Request.validateMethod (r : Request) : Option DomainError :=
  if trimSpace r.method = "" then some .emptyMethod
  else if supportedMethods.contains (toUpperStr r.method) then none
  else some .invalidMethod

/-- `Request.ValidateURL`: non-blank, parseable, scheme `http` or `https`,
non-empty host. -/
def Request.validateURL (r : Request) : Option DomainError :=
  if trimSpace r.url = "" then some .emptyURL
  else
    match parseURL r.url with
    | .error _ => some .invalidURL
    | .ok p =>
        if p.scheme ≠ "http" ∧ p.scheme ≠ "https" then some .invalidURL
        else if p.host = "" then some .invalidURL
        else none

/-- `Request.ValidateHeaders`: every header name non-blank and free of
`:`, `\n`, `\r`.  Either violation yields the same sentinel error, so the
map-iteration order of the Go original is immaterial. -/
def Request.validateHeaders (r : Request) : Option DomainError :=
  if r.headers.any (fun p =>
      trimSpace p.1 = "" ∨ p.1.contains ':' ∨ p.1.contains (Char.ofNat 10) ∨
        p.1.contains (Char.ofNat 13)) then
    some .invalidHeaderName
  else none

/-- `Request.ValidateQueryParams`: every parameter name non-blank. -/
def Request.validateQueryParams (r : Request) : Option DomainError :=
  if r.queryParams.any (fun p => trimSpace p.1 = "") then some .invalidQueryParam
  else none

/-- `Request.Validate`: method, URL, headers, query parameters, then the auth
strategy if present, stopping at the first failure.  The Go original only
reads the receiver, so the embedding is a pure function. -/
def Request.validate (r : Request) : Option DomainError :=
  match r.validateMethod with
  | some e => some e
  | none =>
    match r.validateURL with
    | some e => some e
    | none =>
      match r.validateHeaders with
      | some e => some e
      | none =>
        match r.validateQueryParams with
        | some e => some e
        | none =>
          match r.authConfig with
          | some a => a.validate.map DomainError.authError
          | none => none

/-- `Request.IsBodyAllowed`: upper-cased method is POST, PUT or PATCH. -/
def Request.isBodyAllowed (r : Request) : Bool :=
  toUpperStr r.method == "POST" || toUpperStr r.method == "PUT" ||
    toUpperStr r.method == "PATCH"

/-! ## Wire request, auth application, engine construction steps -/

/-- The transport-level request (`*http.Request`) as read and written by the
core: method, parsed URL, header map, and the selected body.  Go canonicalizes
MIME header keys on `Header.Set`; the claims below do not depend on that, so
the model replaces on the exact key. -/
structure WireRequest where
  method : String
  url : URLRec
  headers : List (String × String)
  hasBody : Bool
  body : String
  contentLength : Int
  deriving DecidableEq, Repr

/-- `http.Header.Set`-style update on an association list. -/
def headerSet (hs : List (String × String)) (k v : String) : List (String × String) :=
  match hs with
  | [] => [(k, v)]
  | (k2, v2) :: rest => if k2 = k then (k, v) :: rest else (k2, v2) :: headerSet rest k v

/-- The `Apply` method of each auth variant, validate-then-mutate with an
early return: on a validation failure the wire request is returned untouched.
`BasicAuth` sets `Authorization: Basic <base64(username:password)>`,
`BearerAuth` sets `Authorization: Bearer <token>`, `APIKeyAuth` sets either a
header or a query parameter (re-encoding the query). -/
def applyAuth (a : AuthConfig) (w : WireRequest) : Option AuthErr × WireRequest :=
  match a with
  | .noAuth => (none, w)
  | .basic u p =>
      match AuthConfig.validate (.basic u p) with
      | some e => (some e, w)
      | none =>
          let hv := "Basic " ++ base64Encode (u ++ ":" ++ p)
          (none, { w with headers := headerSet w.headers "Authorization" hv })
  | .bearer t =>
      match AuthConfig.validate (.bearer t) with
      | some e => (some e, w)
      | none =>
          (none, { w with headers := headerSet w.headers "Authorization" ("Bearer " ++ t) })
  | .apikey k v loc =>
      match AuthConfig.validate (.apikey k v loc) with
      | some e => (some e, w)
      | none =>
          if loc = apiKeyLocationHeader then
            (none, { w with headers := headerSet w.headers k v })
          else if loc = apiKeyLocationQuery then
            let q := valuesSet (parseQuery w.url.rawQuery) k v
            (none, { w with url := { w.url with rawQuery := encodeQuery q } })
          else (some .invalidAPIKeyLocation, w)

/-- The query merge of `buildURL`: fold the request's parameters over the
URL's parsed query with `Values.Set`, request keys overwriting URL keys. -/
def mergeQueryParams (orig : Values) (qps : List (String × String)) : Values :=
  qps.foldl (fun acc p => valuesSet acc p.1 p.2) orig

/-- The record-level part of `buildURL`: unchanged when the request has no
query parameters, otherwise the raw query is replaced by the encoded merge. -/
def buildURLRec (u : URLRec) (qps : List (String × String)) : URLRec :=
  if qps.length = 0 then u
  else { u with rawQuery := encodeQuery (mergeQueryParams (parseQuery u.rawQuery) qps) }

/-- `httpClient.buildURL`: parse the request URL, merge the query, reassemble. -/
def buildURL (r : Request) : Except String String :=
  match parseURL r.url with
  | .error e => .error ("failed to parse URL: " ++ e)
  | .ok u => .ok (URLRec.toStr (buildURLRec u r.queryParams))

/-- `httpClient.buildHTTPRequest`: build the merged URL, attach a body reader
only when the body is non-empty and the method allows one, copy the request
headers with `Set`, and set an explicit content length for attached bodies. -/
def buildHTTPRequest (r : Request) : Except String WireRequest :=
  match buildURL r with
  | .error e => .error e
  | .ok urlStr =>
      match parseURL urlStr with
      | .error e => .error ("failed to create HTTP request: " ++ e)
      | .ok u =>
          let hasBody := (r.body != "") && r.isBodyAllowed
          let w : WireRequest :=
            { method := toUpperStr r.method,
              url := u,
              headers := r.headers.foldl (fun hs p => headerSet hs p.1 p.2) [],
              hasBody := hasBody,
              body := if hasBody then r.body else "",
              contentLength := 0 }
          if hasBody then .ok { w with contentLength := (r.body.utf8ByteSize : Int) }
          else .ok w

/-! ## Response entity and helpers (`internal/domain/response.go`) -/

/-- `domain.Response`; duration and timestamp are abstract instants. -/
structure Response where
  statusCode : Int
  status : String
  headers : List (String × String)
  body : String
  contentLength : Int
  duration : Int
  timestamp : Int
  requestID : String
  deriving DecidableEq, Repr

/-- `equalsFold`'s inner loop: pairwise comparison after ASCII lower casing. -/
def foldEqChars : List Char → List Char → Bool
  | [], [] => true
  | ca :: ra, cb :: rb => (asciiLowerChar ca = asciiLowerChar cb) && foldEqChars ra rb
  | _, _ => false

/-- `domain.equalsFold`: equal length, then byte-wise comparison folding only
ASCII `A`–`Z` into lower case. -/
def equalsFold (a b : String) : Bool :=
  if a.data.length = b.data.length then foldEqChars a.data b.data else false

/-- The case-insensitive fallback scan of `Response.GetHeader`. -/
def findFold (hs : List (String × String)) (k : String) : Option String :=
  match hs with
  | [] => none
  | (k2, v) :: rest => if equalsFold k2 k then some v else findFold rest k

/-- `Response.GetHeader`: exact-key hit first, then the first case-insensitive
match, else the empty string. -/
def Response.getHeader (r : Response) (name : String) : String :=
  match lookupExact r.headers name with
  | some v => v
  | none =>
      match findFold r.headers name with
      | some v => v
      | none => ""

/-- `Response.HasHeader`: defined as `GetHeader(name) != ""`. -/
def Response.hasHeader (r : Response) (name : String) : Bool :=
  r.getHeader name != ""

/-! ## Engine response conversion (`client.go` buildDomainResponse) -/

/-- The transport-level response (`*http.Response`) as the engine reads it:
status, multi-valued header map, the fully read body bytes, and the
transport-reported content length (`-1` meaning unknown). -/
structure HTTPResponse where
  statusCode : Int
  status : String
  headers : List (String × List String)
  bodyBytes : List Nat
  contentLength : Int
  deriving DecidableEq, Repr

/-- `string(bodyBytes)` modelled byte-as-code-point. -/
def bytesToString (bs : List Nat) : String :=
  ⟨bs.map Char.ofNat⟩

/-- `httpClient.buildDomainResponse`: join multi-valued headers with
a comma and space, copy status and body, then replace a `-1` content length
with the actual byte count of the received body. -/
def buildDomainResponse (h : HTTPResponse) (duration timestamp : Int) (requestID : String) :
    Response :=
  let headers := h.headers.foldl
    (fun m p => if p.2.length > 0 then m ++ [(p.1, String.intercalate ", " p.2)] else m) []
  let r : Response :=
    { statusCode := h.statusCode,
      status := h.status,
      headers := headers,
      body := bytesToString h.bodyBytes,
      contentLength := h.contentLength,
      duration := duration,
      timestamp := timestamp,
      requestID := requestID }
  if r.contentLength = -1 then { r with contentLength := (h.bodyBytes.length : Int) } else r

/-! ## Auth persistence (sqlite repository serialize/deserialize) -/

/-- The decoded JSON field map stored beside the discriminator; Go's
`json.Unmarshal` into a string-field struct reads a missing key as `""`. -/
abbrev FieldMap := List (String × String)

/-- Struct-field read from a decoded JSON object: missing key gives `""`. -/
def fieldGet (m : FieldMap) (k : String) : String :=
  (lookupExact m k).getD ""

/-- `serializeAuthConfig`: the field map persisted for each variant (a nil
or `NoAuth` strategy serializes to the empty object). -/
def serializeAuthConfig : Option AuthConfig → FieldMap
  | none => []
  | some .noAuth => []
  | some (.basic u p) => [("username", u), ("password", p)]
  | some (.bearer t) => [("token", t)]
  | some (.apikey k v loc) => [("key", k), ("value", v), ("location", loc)]

/-- `deserializeAuthConfig`: `""` and `"none"` give `NoAuth`; `"basic"`,
`"bearer"`, `"apikey"` rebuild their variants from the field map; any other
discriminator is an error. -/
def deserializeAuthConfig (authType : String) (config : FieldMap) : Except String AuthConfig :=
  if authType = "" ∨ authType = "none" then .ok .noAuth
  else if authType = "basic" then
    .ok (.basic (fieldGet config "username") (fieldGet config "password"))
  else if authType = "bearer" then .ok (.bearer (fieldGet config "token"))
  else if authType = "apikey" then
    .ok (.apikey (fieldGet config "key") (fieldGet config "value") (fieldGet config "location"))
  else .error ("unknown auth type: " ++ authType)

/-! ## Redirect policy (`client.go` NewClient checkRedirect) -/

/-- Outcome of the redirect check: Go `http.ErrUseLastResponse`, the
`stopped after N redirects` error, or exhaustion of the loop fuel (a model
artifact never reached with enough fuel). -/
inductive RedirectDecision where
  | useLastResponse
  | stoppedAfter (n : Int)
  | fuelExhausted
  deriving DecidableEq, Repr

/-- `http.Config` of `client.go`; durations are abstract ticks. -/
structure ClientConfig where
  timeout : Int
  maxRedirects : Int
  insecureSkipTLS : Bool
  followRedirects : Bool
  dialTimeout : Int
  tlsHandshakeTimeout : Int
  responseHeaderTimeout : Int
  keepAlive : Int
  idleConnTimeout : Int
  deriving DecidableEq, Repr

/-- The `checkRedirect` closure of `NewClient`: with redirect following
disabled, use the last response; otherwise fail once the number of
already-issued requests reaches `maxRedirects`. -/
def checkRedirect (cfg : ClientConfig) (viaLen : Nat) : Option RedirectDecision :=
  if cfg.followRedirects = false then some .useLastResponse
  else if (viaLen : Int) ≥ cfg.maxRedirects then some (.stoppedAfter cfg.maxRedirects)
  else none

/-- The redirect status codes Go `http.Client` follows. -/
def isRedirectStatus (s : Int) : Bool :=
  s == 301 || s == 302 || s == 303 || s == 307 || s == 308

/-- The redirect loop of Go `http.Client.Do` under the configured
`checkRedirect`: request `i` of the chain is answered by `server i`; before
following a redirect the check runs with the count of requests already
issued.  Fuel bounds the recursion; every theorem below supplies enough. -/
def redirectLoop (cfg : ClientConfig) (server : Nat → HTTPResponse) :
    Nat → Nat → Except RedirectDecision HTTPResponse
  | _, 0 => .error .fuelExhausted
  | i, fuel + 1 =>
      let resp := server i
      if isRedirectStatus resp.statusCode then
        match checkRedirect cfg (i + 1) with
        | some .useLastResponse => .ok resp
        | some e => .error e
        | none => redirectLoop cfg server (i + 1) fuel
      else .ok resp

/-- One transport execution under the redirect policy, starting at request 0. -/
def clientDo (cfg : ClientConfig) (server : Nat → HTTPResponse) (fuel : Nat) :
    Except RedirectDecision HTTPResponse :=
  redirectLoop cfg server 0 fuel

/-! ## Shared concrete sample values for witnesses -/

/-- A minimal wire request used as a concrete input by several witnesses. -/
def sampleWire : WireRequest :=
  { method := "GET",
    url := { scheme := "http", host := "example.com", path := "/", rawQuery := "", fragment := "" },
    headers := [],
    hasBody := false,
    body := "",
    contentLength := 0 }

/-! ## Claims -/

/-- C1, counterexample: the claim says an unrecognized discriminator
deserializes to the no-auth variant with no error, but
`deserializeAuthConfig "custom" …` returns the `unknown auth type` error. -/
theorem C1_counterexample :
    deserializeAuthConfig "custom" [] = Except.error "unknown auth type: custom" ∧
    deserializeAuthConfig "custom" [] ≠ Except.ok AuthConfig.noAuth := by
  refine ⟨rfl, ?_⟩
  intro h
  exact Except.noConfusion h

/-- C1, amended: an absent (empty) or `"none"` discriminator deserializes to
the no-auth variant with no error; `"basic"`, `"bearer"` and `"apikey"`
rebuild their variants from the field map; every other discriminator yields
an `unknown auth type` error rather than the no-auth variant. -/
theorem C1_deserialize_amended (t : String) (m : FieldMap) :
    (t = "" ∨ t = "none" → deserializeAuthConfig t m = .ok .noAuth) ∧
    deserializeAuthConfig "basic" m =
      .ok (.basic (fieldGet m "username") (fieldGet m "password")) ∧
    deserializeAuthConfig "bearer" m = .ok (.bearer (fieldGet m "token")) ∧
    deserializeAuthConfig "apikey" m =
      .ok (.apikey (fieldGet m "key") (fieldGet m "value") (fieldGet m "location")) ∧
    (t ≠ "" → t ≠ "none" → t ≠ "basic" → t ≠ "bearer" → t ≠ "apikey" →
      deserializeAuthConfig t m = .error ("unknown auth type: " ++ t)) := by
  refine ⟨?_, rfl, rfl, rfl, ?_⟩
  · intro h
    unfold deserializeAuthConfig
    rcases h with h | h <;> simp [h]
  · intro h1 h2 h3 h4 h5
    unfold deserializeAuthConfig
    simp [h1, h2, h3, h4, h5]

/-- C1, witness for the amended theorem at concrete inputs. -/
theorem C1_witness :
    deserializeAuthConfig "none" [] = .ok .noAuth ∧
    deserializeAuthConfig "oauth2" [] = .error "unknown auth type: oauth2" := by
  have h := C1_deserialize_amended "none" ([] : FieldMap)
  have h2 := C1_deserialize_amended "oauth2" ([] : FieldMap)
  exact ⟨h.1 (Or.inr rfl),
    h2.2.2.2.2 (by decide) (by decide) (by decide) (by decide) (by decide)⟩

/-- C2, counterexample: the claim requires the password to be non-blank
(neither empty nor whitespace-only), but a whitespace-only password passes
`BasicAuth.Validate`, which checks the password only against the empty
string. -/
theorem C2_counterexample :
    AuthConfig.validate (.basic "user" " ") = none ∧ trimSpace " " = "" := by
  exact ⟨rfl, rfl⟩

/-- C2, amended: `BasicAuth` validation succeeds iff the username is
non-blank and the password is non-empty (a whitespace-only password is
accepted); a blank username is reported as missing-username before the
password is examined, and with a non-blank username an empty password is
reported as missing-password. -/
theorem C2_basic_validate_amended (u p : String) :
    (AuthConfig.validate (.basic u p) = none ↔ trimSpace u ≠ "" ∧ p ≠ "") ∧
    (trimSpace u = "" → AuthConfig.validate (.basic u p) = some .missingUsername) ∧
    (trimSpace u ≠ "" → p = "" → AuthConfig.validate (.basic u p) = some .missingPassword) := by
  simp only [AuthConfig.validate]
  refine ⟨?_, ?_, ?_⟩
  · split_ifs with h1 h2 <;> simp_all
  · intro h
    simp [h]
  · intro h1 h2
    simp [h1, h2]

/-- C2, witness for the amended theorem at concrete inputs. -/
theorem C2_witness :
    AuthConfig.validate (.basic "  " "pass") = some .missingUsername ∧
    AuthConfig.validate (.basic "user" "") = some .missingPassword := by
  have h1 := (C2_basic_validate_amended "  " "pass").2.1
  have h2 := (C2_basic_validate_amended "user" "").2.2
  exact ⟨h1 rfl, h2 (by decide) rfl⟩

/-- C4: for every auth variant and wire request, a validation failure makes
`Apply` return that validation error with the wire request untouched — no
header and no query parameter is set. -/
theorem C4_apply_no_mutation_on_invalid (a : AuthConfig) (w : WireRequest) (e : AuthErr)
    (h : a.validate = some e) : applyAuth a w = (some e, w) := by
  cases a with
  | noAuth => exact absurd h (by simp [AuthConfig.validate])
  | basic u p => simp [applyAuth, h]
  | bearer t => simp [applyAuth, h]
  | apikey k v loc => simp [applyAuth, h]

/-- C4, witness: an invalid `BasicAuth` leaves the sample wire request as-is. -/
theorem C4_witness :
    applyAuth (.basic "" "x") sampleWire = (some AuthErr.missingUsername, sampleWire) :=
  C4_apply_no_mutation_on_invalid (.basic "" "x") sampleWire AuthErr.missingUsername (by decide)

/-- C9: serializing any strategy of the four variants to its
(discriminator, field-map) pair and deserializing that pair yields the very
same strategy value. -/
theorem C9_auth_roundtrip (a : AuthConfig) :
    deserializeAuthConfig a.type (serializeAuthConfig (some a)) = .ok a := by
  cases a <;> rfl

/-- A request with an unsupported method and a blank URL: several checks
fail at once, so it exercises the first-failure rule. -/
def sampleBadRequest : Request :=
  { id := "r1",
    name := "bad",
    method := "FOO",
    url := "",
    headers := [],
    queryParams := [],
    body := "",
    authConfig := some .noAuth,
    createdAt := 0,
    updatedAt := 0 }

/-- A well-formed POST request with a body. -/
def samplePost : Request :=
  { id := "r2",
    name := "post",
    method := "post",
    url := "http://example.com/x",
    headers := [("Accept", "application/json")],
    queryParams := [],
    body := "hi",
    authConfig := none,
    createdAt := 0,
    updatedAt := 0 }

/-- C3: `Request.Validate` runs method, URL, header-name, query-parameter-name
and then auth-strategy checks in that order, returning the first failing
check's error without aggregation, and returns `none` when every check
passes; the embedding is a pure function of the request, so validation
cannot mutate it. -/
theorem C3_validate_order (r : Request) (e : DomainError) :
    (r.validateMethod = some e → r.validate = some e) ∧
    (r.validateMethod = none → r.validateURL = some e → r.validate = some e) ∧
    (r.validateMethod = none → r.validateURL = none → r.validateHeaders = some e →
      r.validate = some e) ∧
    (r.validateMethod = none → r.validateURL = none → r.validateHeaders = none →
      r.validateQueryParams = some e → r.validate = some e) ∧
    (r.validateMethod = none → r.validateURL = none → r.validateHeaders = none →
      r.validateQueryParams = none →
      r.validate = (r.authConfig.bind AuthConfig.validate).map DomainError.authError) := by
  unfold Request.validate
  refine ⟨?_, ?_, ?_, ?_, ?_⟩ <;> intros <;> simp_all
  cases r.authConfig <;> simp

/-- C3, witness: the sample request fails method and URL checks at once and
validation reports the method error. -/
theorem C3_witness : sampleBadRequest.validate = some DomainError.invalidMethod :=
  (C3_validate_order sampleBadRequest DomainError.invalidMethod).1 (by decide)

/-- C5: the engine-built wire request carries a body exactly when the body is
non-empty and the method (upper-cased) is POST, PUT or PATCH, and an attached
body comes with a content length equal to its byte length. -/
theorem C5_body_policy (r : Request) (w : WireRequest) (h : buildHTTPRequest r = .ok w) :
    w.hasBody = ((r.body != "") && r.isBodyAllowed) ∧
    r.isBodyAllowed = (toUpperStr r.method == "POST" || toUpperStr r.method == "PUT" ||
      toUpperStr r.method == "PATCH") ∧
    (w.hasBody = true → w.contentLength = (r.body.utf8ByteSize : Int)) := by
  unfold buildHTTPRequest at h
  split at h
  · exact absurd h (by simp)
  · split at h
    · exact absurd h (by simp)
    · by_cases hcond : ((r.body != "") && r.isBodyAllowed) = true
      · simp only [hcond, if_true, Except.ok.injEq] at h
        subst h
        exact ⟨by simp [hcond], rfl, fun _ => rfl⟩
      · simp only [hcond, Bool.false_eq_true, if_false, Except.ok.injEq] at h
        subst h
        refine ⟨by simp [Bool.eq_false_iff.mpr hcond], rfl, ?_⟩
        intro hfalse
        exact absurd hfalse (by simp [Bool.eq_false_iff.mpr hcond])

/-- C5, witness: the sample POST carries its two-byte body with content
length 2, and a GET with a body set carries none. -/
theorem C5_witness :
    ∃ w, buildHTTPRequest samplePost = .ok w ∧ w.hasBody = true ∧ w.contentLength = 2 := by
  have hok : (buildHTTPRequest samplePost).isOk = true := by decide
  cases hw : buildHTTPRequest samplePost with
  | error e => rw [hw] at hok; exact absurd hok (by simp [Except.isOk, Except.toBool])
  | ok w =>
    have h := C5_body_policy samplePost w hw
    refine ⟨w, rfl, ?_, ?_⟩
    · rw [h.1]; decide
    · have hb : w.hasBody = true := by rw [h.1]; decide
      rw [h.2.2 hb]; decide

/-- C7: the populated `Response`'s content length equals the received body's
byte count when the transport reports `-1`, and equals the transport-reported
value otherwise. -/
theorem C7_content_length (h : HTTPResponse) (d t : Int) (rid : String) :
    (h.contentLength = -1 →
      (buildDomainResponse h d t rid).contentLength = (h.bodyBytes.length : Int)) ∧
    (h.contentLength ≠ -1 →
      (buildDomainResponse h d t rid).contentLength = h.contentLength) := by
  unfold buildDomainResponse
  constructor <;> intro hc <;> simp [hc]

/-- C7, witness: a transport-reported `-1` becomes the body's length, and a
reported `5` is kept. -/
theorem C7_witness :
    (buildDomainResponse
      { statusCode := 200, status := "200 OK", headers := [], bodyBytes := [104, 105],
        contentLength := -1 } 3 4 "rid").contentLength = 2 ∧
    (buildDomainResponse
      { statusCode := 200, status := "200 OK", headers := [], bodyBytes := [104, 105],
        contentLength := 5 } 3 4 "rid").contentLength = 5 := by
  constructor
  · exact (C7_content_length
      { statusCode := 200, status := "200 OK", headers := [], bodyBytes := [104, 105],
        contentLength := -1 } 3 4 "rid").1 rfl
  · exact (C7_content_length
      { statusCode := 200, status := "200 OK", headers := [], bodyBytes := [104, 105],
        contentLength := 5 } 3 4 "rid").2 (by decide)

/-! ## Query-merge lemmas -/

/-- After `Values.Set`, the set key maps to exactly the single new value. -/
theorem valuesLookup_set_self (m : Values) (k v : String) :
    valuesLookup (valuesSet m k v) k = some [v] := by
  induction m with
  | nil => simp [valuesSet, valuesLookup]
  | cons p rest ih =>
    obtain ⟨k2, vs⟩ := p
    by_cases hk : k2 = k
    · simp [valuesSet, valuesLookup, hk]
    · simp [valuesSet, valuesLookup, hk, ih]

/-- `Values.Set` leaves every other key's value untouched. -/
theorem valuesLookup_set_other (m : Values) (k k2 v : String) (h : k2 ≠ k) :
    valuesLookup (valuesSet m k v) k2 = valuesLookup m k2 := by
  induction m with
  | nil => simp [valuesSet, valuesLookup, Ne.symm h]
  | cons p rest ih =>
    obtain ⟨k3, vs⟩ := p
    by_cases hk : k3 = k
    · subst hk
      simp [valuesSet, valuesLookup, Ne.symm h]
    · simp [valuesSet, valuesLookup, hk, ih]

/-- Folding `Values.Set` over parameters not containing key `k` does not
change `k`'s value. -/
theorem merge_lookup_not_mem :
    ∀ (qps : List (String × String)) (acc : Values) (k : String),
      k ∉ qps.map Prod.fst →
      valuesLookup (qps.foldl (fun a p => valuesSet a p.1 p.2) acc) k = valuesLookup acc k := by
  intro qps
  induction qps with
  | nil =>
    intro acc k _
    rfl
  | cons p rest ih =>
    intro acc k h
    simp only [List.map_cons, List.mem_cons, not_or] at h
    rw [List.foldl_cons, ih _ k h.2, valuesLookup_set_other _ _ _ _ h.1]

/-- Folding `Values.Set` over parameters with pairwise-distinct keys maps each
parameter key to exactly its supplied value. -/
theorem merge_lookup_mem :
    ∀ (qps : List (String × String)) (acc : Values) (k v : String),
      (qps.map Prod.fst).Nodup → (k, v) ∈ qps →
      valuesLookup (qps.foldl (fun a p => valuesSet a p.1 p.2) acc) k = some [v] := by
  intro qps
  induction qps with
  | nil =>
    intro acc k v _ hmem
    simp at hmem
  | cons p rest ih =>
    intro acc k v hnd hmem
    simp only [List.map_cons, List.nodup_cons] at hnd
    rw [List.foldl_cons]
    rcases List.mem_cons.mp hmem with heq | hmem2
    · have hp1 : p.1 = k := by rw [← heq]
      have hk : k ∉ rest.map Prod.fst := hp1 ▸ hnd.1
      rw [merge_lookup_not_mem rest _ k hk]
      have hp2 : p.2 = v := by rw [← heq]
      rw [hp1, hp2]
      exact valuesLookup_set_self acc k v
    · exact ih _ k v hnd.2 hmem2

/-- C6: building the wire URL merges the request's query parameters into the
URL's parsed query so that every request-supplied key holds exactly the
request-supplied value, every key only in the URL's query string keeps its
original value, and the path is unchanged. -/
theorem C6_query_merge (u : URLRec) (qps : List (String × String)) (k v : String)
    (hnd : (qps.map Prod.fst).Nodup) :
    ((k, v) ∈ qps →
      valuesLookup (mergeQueryParams (parseQuery u.rawQuery) qps) k = some [v]) ∧
    (k ∉ qps.map Prod.fst →
      valuesLookup (mergeQueryParams (parseQuery u.rawQuery) qps) k =
        valuesLookup (parseQuery u.rawQuery) k) ∧
    (buildURLRec u qps).path = u.path := by
  refine ⟨fun hm => merge_lookup_mem qps _ k v hnd hm,
    fun hm => merge_lookup_not_mem qps _ k hm, ?_⟩
  unfold buildURLRec
  split <;> rfl

/-- C6, witness: merging `a=1` into `a=0&b=2` overwrites `a`, keeps `b`, and
the path survives. -/
theorem C6_witness :
    valuesLookup (mergeQueryParams
      (parseQuery "a=0&b=2") [("a", "1")]) "a" = some ["1"] ∧
    valuesLookup (mergeQueryParams
      (parseQuery "a=0&b=2") [("a", "1")]) "b" = valuesLookup (parseQuery "a=0&b=2") "b" ∧
    (buildURLRec
      { scheme := "http", host := "x", path := "/path", rawQuery := "a=0&b=2", fragment := "" }
      [("a", "1")]).path = "/path" := by
  have h := C6_query_merge
    { scheme := "http", host := "x", path := "/path", rawQuery := "a=0&b=2", fragment := "" }
    [("a", "1")] "a" "1" (by decide)
  have h2 := C6_query_merge
    { scheme := "http", host := "x", path := "/path", rawQuery := "a=0&b=2", fragment := "" }
    [("a", "1")] "b" "1" (by decide)
  exact ⟨h.1 (by decide), h2.2.1 (by decide), h.2.2⟩

/-! ## Header-lookup lemmas -/

/-- The pairwise fold loop agrees with comparing the ASCII-lower-cased
character lists. -/
theorem foldEqChars_iff :
    ∀ (la lb : List Char),
      foldEqChars la lb = true ↔ la.map asciiLowerChar = lb.map asciiLowerChar := by
  intro la
  induction la with
  | nil =>
    intro lb
    cases lb <;> simp [foldEqChars]
  | cons a ra ih =>
    intro lb
    cases lb with
    | nil => simp [foldEqChars]
    | cons b rb =>
      simp [foldEqChars, ih rb, Bool.and_eq_true, decide_eq_true_iff]

/-- `equalsFold` matches exactly when the two strings agree after folding
only the ASCII letters `A`–`Z` to lower case. -/
theorem equalsFold_iff (a b : String) :
    equalsFold a b = true ↔ asciiLowerStr a = asciiLowerStr b := by
  unfold equalsFold asciiLowerStr
  by_cases hlen : a.data.length = b.data.length
  · rw [if_pos hlen, foldEqChars_iff]
    constructor
    · intro h
      exact congrArg String.mk h
    · intro h
      injection h
  · rw [if_neg hlen]
    constructor
    · intro h
      exact absurd h (by simp)
    · intro h
      injection h with h2
      have hlen2 := congrArg List.length h2
      simp only [List.length_map] at hlen2
      exact absurd hlen2 hlen

/-- C10: `HasHeader` holds exactly when `GetHeader` is non-empty, a header
stored with an empty value is therefore reported as absent, and the
case-insensitive matching folds only the ASCII letters `A`–`Z`. -/
theorem C10_header_lookup (r : Response) (n m : String) :
    (r.hasHeader n = true ↔ r.getHeader n ≠ "") ∧
    (lookupExact r.headers n = some "" → r.hasHeader n = false) ∧
    (equalsFold n m = true ↔ asciiLowerStr n = asciiLowerStr m) := by
  refine ⟨?_, ?_, equalsFold_iff n m⟩
  · simp [Response.hasHeader, bne_iff_ne]
  · intro h
    unfold Response.hasHeader Response.getHeader
    rw [h]
    rfl

/-- C10, witness: a header present with the empty string as value is reported
absent by `HasHeader`. -/
theorem C10_witness :
    Response.hasHeader
      { statusCode := 200, status := "200 OK", headers := [("X-Empty", "")], body := "",
        contentLength := 0, duration := 0, timestamp := 0, requestID := "r" } "X-Empty" = false :=
  (C10_header_lookup
    { statusCode := 200, status := "200 OK", headers := [("X-Empty", "")], body := "",
      contentLength := 0, duration := 0, timestamp := 0, requestID := "r" } "X-Empty" "x").2.1 rfl

/-! ## Redirect-policy claims -/

/-- A `302 Found` hop pointing at the next location. -/
def redirectResp : HTTPResponse :=
  { statusCode := 302, status := "302 Found",
    headers := [("Location", ["http://example.com/next"])], bodyBytes := [], contentLength := 0 }

/-- A terminal `200 OK`. -/
def okResp : HTTPResponse :=
  { statusCode := 200, status := "200 OK", headers := [], bodyBytes := [], contentLength := 0 }

/-- A server whose chain has exactly two redirects and then succeeds. -/
def chainTwoServer (i : Nat) : HTTPResponse :=
  if i < 2 then redirectResp else okResp

/-- A server that redirects indefinitely. -/
def alwaysRedirectServer : Nat → HTTPResponse :=
  fun _ => redirectResp

/-- The default configuration restricted to two redirects with following on. -/
def cfgFollowMax2 : ClientConfig :=
  { timeout := 30, maxRedirects := 2, insecureSkipTLS := false, followRedirects := true,
    dialTimeout := 10, tlsHandshakeTimeout := 10, responseHeaderTimeout := 10,
    keepAlive := 30, idleConnTimeout := 90 }

/-- C8, counterexample: with `maxRedirects = 2` a chain of exactly two
redirects — a chain that does *not* exceed the configured maximum — already
fails with the redirect-exceeded error, because `checkRedirect` compares the
issued-request count against the maximum non-strictly. -/
theorem C8_counterexample :
    clientDo cfgFollowMax2 chainTwoServer 10 = .error (.stoppedAfter 2) ∧
    isRedirectStatus (chainTwoServer 0).statusCode = true ∧
    isRedirectStatus (chainTwoServer 1).statusCode = true ∧
    isRedirectStatus (chainTwoServer 2).statusCode = false ∧
    ¬((2 : Int) > cfgFollowMax2.maxRedirects) := by
  refine ⟨rfl, rfl, rfl, rfl, by decide⟩

/-- With redirect following disabled the loop returns the first response
unfollowed, for every `maxRedirects` value. -/
theorem redirectLoop_disabled (cfg : ClientConfig) (server : Nat → HTTPResponse) (i fuel : Nat)
    (hf : cfg.followRedirects = false) :
    redirectLoop cfg server i (fuel + 1) = .ok (server i) := by
  have hc : checkRedirect cfg (i + 1) = some .useLastResponse := by
    unfold checkRedirect
    rw [if_pos hf]
  unfold redirectLoop
  simp only [hc]
  split <;> rfl

/-- Against a server that redirects at every hop, the loop fails with the
`stopped after maxRedirects redirects` error once enough requests have been
issued. -/
theorem redirectLoop_always_redirect (cfg : ClientConfig) (server : Nat → HTTPResponse)
    (hf : cfg.followRedirects = true)
    (hr : ∀ j, isRedirectStatus (server j).statusCode = true) :
    ∀ (fuel i : Nat), cfg.maxRedirects ≤ (fuel : Int) + (i : Int) → 1 ≤ fuel →
      redirectLoop cfg server i fuel = .error (.stoppedAfter cfg.maxRedirects) := by
  intro fuel
  induction fuel with
  | zero =>
    intro i _ h1
    omega
  | succ f ih =>
    intro i hb _
    unfold redirectLoop
    simp only [hr i, if_true]
    by_cases hge : ((i + 1 : Nat) : Int) ≥ cfg.maxRedirects
    · simp only [checkRedirect, hf]
      rw [if_neg (by simp), if_pos hge]
    · simp only [checkRedirect, hf]
      rw [if_neg (by simp), if_neg hge]
      exact ih (i + 1) (by push_cast at hb hge ⊢; omega) (by push_cast at hge; omega)

/-- A chain of `k` redirects followed by a non-redirect completes with the
final response whenever `k` stays strictly below `maxRedirects`. -/
theorem redirectLoop_chain (cfg : ClientConfig) (server : Nat → HTTPResponse)
    (hf : cfg.followRedirects = true) :
    ∀ (k i fuel : Nat),
      (∀ j, j < k → isRedirectStatus (server (i + j)).statusCode = true) →
      isRedirectStatus (server (i + k)).statusCode = false →
      ((i + k : Nat) : Int) < cfg.maxRedirects →
      k + 1 ≤ fuel →
      redirectLoop cfg server i fuel = .ok (server (i + k)) := by
  intro k
  induction k with
  | zero =>
    intro i fuel _ hstop _ hfuel
    cases fuel with
    | zero => omega
    | succ f =>
      unfold redirectLoop
      simp only [Nat.add_zero] at hstop
      simp [hstop]
  | succ k2 ih =>
    intro i fuel hred hstop hb hfuel
    cases fuel with
    | zero => omega
    | succ f =>
      unfold redirectLoop
      have h0 : isRedirectStatus (server i).statusCode = true := by
        have := hred 0 (by omega)
        simpa using this
      simp only [h0, if_true]
      simp only [checkRedirect, hf]
      rw [if_neg (by simp), if_neg (by push_cast at hb ⊢; omega)]
      have hidx : i + 1 + k2 = i + (k2 + 1) := by omega
      have hres := ih (i + 1) f
        (fun j hj => by
          have := hred (j + 1) (by omega)
          have hx : i + 1 + j = i + (j + 1) := by omega
          rw [hx]
          exact this)
        (by rw [hidx]; exact hstop)
        (by rw [hidx]; exact hb)
        (by omega)
      rw [hres, hidx]

/-- C8, amended: with redirect following disabled the first response of the
chain is returned as-is, for every `maxRedirects` value; with following
enabled, a chain whose redirect count stays strictly below `maxRedirects`
completes with its final response, while a server that keeps redirecting
makes the execution fail with the redirect-exceeded error naming
`maxRedirects` — so a chain of exactly `maxRedirects` redirects already
fails. -/
theorem C8_redirect_policy_amended (cfg : ClientConfig) (server : Nat → HTTPResponse)
    (fuel k : Nat) :
    (cfg.followRedirects = false → 1 ≤ fuel → clientDo cfg server fuel = .ok (server 0)) ∧
    (cfg.followRedirects = true → (∀ j, isRedirectStatus (server j).statusCode = true) →
      cfg.maxRedirects ≤ (fuel : Int) → 1 ≤ fuel →
      clientDo cfg server fuel = .error (.stoppedAfter cfg.maxRedirects)) ∧
    (cfg.followRedirects = true → (∀ j, j < k → isRedirectStatus (server j).statusCode = true) →
      isRedirectStatus (server k).statusCode = false → (k : Int) < cfg.maxRedirects →
      k + 1 ≤ fuel → clientDo cfg server fuel = .ok (server k)) := by
  refine ⟨?_, ?_, ?_⟩
  · intro hf h1
    obtain ⟨f, rfl⟩ : ∃ f, fuel = f + 1 := ⟨fuel - 1, by omega⟩
    exact redirectLoop_disabled cfg server 0 f hf
  · intro hf hr hb h1
    exact redirectLoop_always_redirect cfg server hf hr fuel 0 (by push_cast; omega) h1
  · intro hf hred hstop hb hfuel
    have h := redirectLoop_chain cfg server hf k 0 fuel
      (fun j hj => by simpa using hred j hj)
      (by simpa using hstop)
      (by simpa using hb) hfuel
    simpa using h

/-- C8, witness: an indefinitely redirecting server under `maxRedirects = 2`
fails with the redirect-exceeded error naming 2. -/
theorem C8_witness :
    clientDo cfgFollowMax2 alwaysRedirectServer 5 = .error (.stoppedAfter 2) :=
  (C8_redirect_policy_amended cfgFollowMax2 alwaysRedirectServer 5 0).2.1 rfl
    (fun _ => rfl) (by decide) (by decide)

end Curly
